import Mathlib

/-!
Verification of the documented behavior of the `composeml` label maker
(data slice generator, label search) and of the repository's CI workflow
configuration.

The repository slice at hand contains the documentation notebooks
(`docs/source/user_guide/data_slice_generator.ipynb`,
`docs/source/examples/predict_turbofan_degredation.ipynb`) and the GitHub
Actions workflow files.  The `composeml` implementation itself
(`LabelMaker.slice`, `LabelMaker.search`) is not part of the supplied
sources, so those operations are modelled here from the specification's
description of their contract; the workflow model is translated directly
from `.github/workflows/minimum_dependency_checker.yml`.

Times and label values are modelled as integers; group keys as naturals.
-/

namespace Compose

/-- A record of the time-ordered input table: a group key (for example
`customer_id` or `engine_no`), a time index value, and a numeric payload
(for example the transaction `amount`). -/
structure Row where
  key : Nat
  time : Int
  amount : Int
  deriving Repr, DecidableEq

/-- Metadata attached to a data slice; the notebooks show a
`context` attribute carrying, in particular, the `slice_number`. -/
structure SliceContext where
  slice_number : Nat
  deriving Repr, DecidableEq

/-- A data slice: a subset of rows bounded by a time window, paired with
its cutoff time and its context metadata. -/
structure DataSlice where
  rows : List Row
  cutoff : Int
  context : SliceContext
  deriving Repr, DecidableEq

/-- The rows of `rows` whose time index lies in the window
`[c, c + w)` starting at cutoff time `c` with window size `w`. -/
def windowRows (rows : List Row) (c w : Int) : List Row :=
  rows.filter (fun r => decide (c ≤ r.time) && decide (r.time < c + w))

/-- The largest time index appearing in `rows` (`0` for the empty list). -/
def maxTime : List Row → Int
  | [] => 0
  | r :: rs => rs.foldl (fun m x => max m x.time) r.time

/-- Modelled from the spec: how many data slices the generator produces
for one group before "the group's remaining span is exhausted"
(the implementation of `LabelMaker.slice` is not in the supplied sources).
Cutoff times start at `t0` and advance by the gap `g`; a slice is produced
for every cutoff that does not exceed the group's last time index. -/
def numSlices (rows : List Row) (g t0 : Int) : Nat :=
  match rows with
  | [] => 0
  | _ :: _ =>
    if t0 ≤ maxTime rows then (maxTime rows - t0).toNat / g.toNat + 1 else 0

/-- The data slice at cutoff time `c` with window size `w` and slice
number `k`: the rows falling in the window `[c, c + w)`, the cutoff, and
the context. -/
def mkSlice (rows : List Row) (w c : Int) (k : Nat) : DataSlice :=
  ⟨windowRows rows c w, c, ⟨k⟩⟩

/-- Modelled from the spec: the per-group data slice generator
(`LabelMaker.slice` restricted to one group's rows; its implementation is
not in the supplied sources).  Given the group's rows, a window size `w`,
a gap size `g`, and the first cutoff time `t0` (the `minimum_data`
timestamp), it produces one `(subset-of-rows, cutoff-time, context)`
tuple per window, advancing the cutoff time by the gap size each step,
stopping when the group's remaining span is exhausted. -/
def sliceGroup (rows : List Row) (w g t0 : Int) : List DataSlice :=
  (List.range (numSlices rows g t0)).map
    (fun k : Nat => mkSlice rows w (t0 + (k : Int) * g) k)

/-- The rows of the table belonging to group `k`. -/
def groupRows (table : List Row) (k : Nat) : List Row :=
  table.filter (fun r => r.key == k)

/-- The distinct group keys of the table, in order of first appearance. -/
def keyList (table : List Row) : List Nat :=
  (table.map Row.key).dedup

/-- Modelled from the spec: the `num_examples_per_instance` limit of
`LabelMaker.search` (implementation not in the supplied sources).  A
non-negative value keeps at most that many slices per group; the value
`-1` keeps every slice obtainable for the group. -/
def limitSlices (n : Int) (xs : List DataSlice) : List DataSlice :=
  if n < 0 then xs else xs.take n.toNat

/-- A row of the label times table returned by the search: exactly three
columns — the group key, the cutoff time, and the label value. -/
structure LabelRow where
  key : Nat
  cutoff : Int
  label : Int
  deriving Repr, DecidableEq

/-- One label times row per retained slice of group `k`, carrying the
labeling function's value on the slice's row subset. -/
def labelGroup (f : List Row → Int) (table : List Row) (w g t0 n : Int)
    (k : Nat) : List LabelRow :=
  (limitSlices n (sliceGroup (groupRows table k) w g t0)).map
    (fun s => ⟨k, s.cutoff, f s.rows⟩)

/-- The label times rows collected over a list of group keys. -/
def searchKeys (f : List Row → Int) (table : List Row) (w g t0 n : Int) :
    List Nat → List LabelRow
  | [] => []
  | k :: ks =>
    labelGroup f table w g t0 n k ++ searchKeys f table w g t0 n ks

/-- Modelled from the spec: `LabelMaker.search` (implementation not in
the supplied sources).  A labeling function `f` maps each window's row
subset to a label value; results are collected into a label times table
with columns group key, cutoff time, label value, at most `n` examples
per group instance (all of them when `n = -1`). -/
def search (f : List Row → Int) (table : List Row) (w g t0 n : Int) :
    List LabelRow :=
  searchKeys f table w g t0 n (keyList table)

/-- Whether the table's rows are sorted chronologically by the time column. -/
def sortedByTime : List Row → Bool
  | [] => true
  | [_] => true
  | r :: r' :: rest => decide (r.time ≤ r'.time) && sortedByTime (r' :: rest)

/-- Modelled from the spec: the error behavior of `LabelMaker.search`
(implementation not in the supplied sources) — "the external search
routine raises an error if input rows are not sorted chronologically by
the time column"; otherwise the search proceeds normally. -/
def searchChecked (f : List Row → Int) (table : List Row) (w g t0 n : Int) :
    Except String (List LabelRow) :=
  if sortedByTime table then Except.ok (search f table w g t0 n)
  else Except.error "records must be sorted chronologically"

/-- The labeling function of the user guide notebook: the total amount
spent on a slice of transactions. -/
def total_spent (rows : List Row) : Int :=
  (rows.map Row.amount).sum

/-- The rows of the table whose time index is strictly before the cutoff
time `t` — the data allowed into a label's feature computation. -/
def rowsBefore (table : List Row) (t : Int) : List Row :=
  table.filter (fun r => decide (r.time < t))

/-- Modelled from the spec: the feature computation for a label with
cutoff time `t` (the feature engine `ft.dfs` is an external collaborator
whose code is not in the supplied sources; the notebooks call it with
`include_cutoff_time=False`).  An aggregation primitive `agg` is applied
to the rows available before the cutoff time, per the glossary: the
cutoff time marks "the boundary after which data is excluded from a given
label's feature computation". -/
def dfsFeature (agg : List Row → Int) (table : List Row) (t : Int) : Int :=
  agg (rowsBefore table t)

/-- The `sum` aggregation primitive used by the turbofan notebook
(`agg_primitives=['sum']`). -/
def sumAgg (rows : List Row) : Int :=
  (rows.map Row.amount).sum

/-- A small demonstration group of transactions (one customer, times 0,
1, 3 and 5), used to instantiate the theorems on concrete data. -/
def demoRows : List Row :=
  [⟨1, 0, 10⟩, ⟨1, 1, 20⟩, ⟨1, 3, 30⟩, ⟨1, 5, 40⟩]

/-- A small demonstration table with two customers. -/
def demoTable : List Row :=
  [⟨1, 0, 10⟩, ⟨2, 0, 5⟩, ⟨1, 1, 20⟩, ⟨2, 3, 7⟩]

/-- The number of rows of a label times table that belong to group
instance `k`. -/
def countKey (lrs : List LabelRow) (k : Nat) : Nat :=
  (lrs.filter (fun lr => lr.key == k)).length

end Compose

namespace Workflows

/-- A push event, as seen by a GitHub Actions trigger filter: the branch
pushed to and the paths modified by the push. -/
structure PushEvent where
  branch : String
  changedPaths : List String
  deriving Repr, DecidableEq

/-- The events that can trigger the repository's workflows. -/
inductive WorkflowEvent where
  | workflowDispatch : WorkflowEvent
  | push : PushEvent → WorkflowEvent
  deriving Repr, DecidableEq

/-- The trigger condition of `.github/workflows/minimum_dependency_checker.yml`:
a manual `workflow_dispatch`, or a `push` whose branch filter is `main`
and whose path filter is `setup.cfg`. -/
def mdcTriggered : WorkflowEvent → Bool
  | .workflowDispatch => true
  | .push p => p.branch == "main" && p.changedPaths.contains "setup.cfg"

/-- A step of the Minimum Dependency Checker job, keeping the
configuration relevant to the dependency pin files and the pull request. -/
inductive MdcStep where
  | checkout : MdcStep
  | minDepGenerator (paths options : String) (extrasRequire : Option String)
      (outputFilepath : String) : MdcStep
  | createPullRequest (branch base : String) : MdcStep
  deriving Repr, DecidableEq

/-- The steps of the `build` job of
`.github/workflows/minimum_dependency_checker.yml`, in order. -/
def mdcSteps : List MdcStep :=
  [ .checkout,
    .minDepGenerator "setup.cfg" "install_requires" (some "test")
      "composeml/tests/requirement_files/minimum_test_requirements.txt",
    .minDepGenerator "setup.cfg" "install_requires" none
      "composeml/tests/requirement_files/minimum_core_requirements.txt",
    .createPullRequest "min-dep-update" "main" ]

/-- The trigger condition as the claim states it: a manual dispatch, or
any push that modifies `setup.cfg` — with no branch restriction.  Stated
from the spec's words for comparison with `mdcTriggered`. -/
def claimedMdcTrigger : WorkflowEvent → Bool
  | .workflowDispatch => true
  | .push p => p.changedPaths.contains "setup.cfg"

end Workflows

namespace Compose

/-! ### Basic lemmas about the slice generator -/

theorem mem_windowRows {rows : List Row} {c w : Int} {r : Row} :
    r ∈ windowRows rows c w ↔ r ∈ rows ∧ c ≤ r.time ∧ r.time < c + w := by
  simp [windowRows, List.mem_filter]

theorem length_sliceGroup (rows : List Row) (w g t0 : Int) :
    (sliceGroup rows w g t0).length = numSlices rows g t0 := by
  simp [sliceGroup]

theorem lt_numSlices_iff (rows : List Row) (g t0 : Int) (k : Nat) (hg : 0 < g) :
    k < numSlices rows g t0 ↔ rows ≠ [] ∧ t0 + (k : Int) * g ≤ maxTime rows := by
  have hkg : (0 : Int) ≤ (k : Int) * g := mul_nonneg (Int.natCast_nonneg k) hg.le
  cases rows with
  | nil => simp [numSlices]
  | cons r rs =>
    simp only [numSlices, ne_eq, reduceCtorEq, not_false_iff, true_and]
    by_cases h0 : t0 ≤ maxTime (r :: rs)
    · rw [if_pos h0]
      have hgn : 0 < g.toNat := by omega
      rw [Nat.lt_succ_iff, Nat.le_div_iff_mul_le hgn, ← Nat.cast_le (α := Int),
        Nat.cast_mul, Int.toNat_of_nonneg hg.le,
        Int.toNat_of_nonneg (by omega : (0 : Int) ≤ maxTime (r :: rs) - t0)]
      constructor <;> intro h <;> linarith
    · rw [if_neg h0]
      simp only [Nat.not_lt_zero, false_iff]
      intro h
      exact h0 (by linarith)

theorem sliceGroup_getElem? (rows : List Row) (w g t0 : Int) (k : Nat) :
    (sliceGroup rows w g t0)[k]? =
      if k < numSlices rows g t0 then
        some (mkSlice rows w (t0 + (k : Int) * g) k)
      else none := by
  unfold sliceGroup
  rw [List.getElem?_map]
  by_cases h : k < numSlices rows g t0
  · rw [List.getElem?_range h, if_pos h]
    rfl
  · rw [List.getElem?_eq_none (by simpa using Nat.le_of_not_lt h), if_neg h]
    rfl

theorem sliceGroup_getElem?_eq_some {rows : List Row} {w g t0 : Int} {k : Nat}
    {s : DataSlice} (hs : (sliceGroup rows w g t0)[k]? = some s) :
    k < numSlices rows g t0 ∧ s = mkSlice rows w (t0 + (k : Int) * g) k := by
  rw [sliceGroup_getElem?] at hs
  split at hs
  · next h => exact ⟨h, (Option.some.injEq _ _ ▸ hs).symm⟩
  · cases hs

theorem mem_sliceGroup {rows : List Row} {w g t0 : Int} {s : DataSlice} :
    s ∈ sliceGroup rows w g t0 ↔
      ∃ j : Nat, j < numSlices rows g t0 ∧
        s = mkSlice rows w (t0 + (j : Int) * g) j := by
  simp only [sliceGroup, List.mem_map, List.mem_range]
  constructor
  · rintro ⟨j, hj, rfl⟩
    exact ⟨j, hj, rfl⟩
  · rintro ⟨j, hj, rfl⟩
    exact ⟨j, hj, rfl⟩

/-! ### C1 -/

/-- C1: for a group's time-ordered rows, a window size, a positive gap
size, and a first cutoff time `t0` (the minimum-data threshold), the
slice generator produces one (subset-of-rows, cutoff-time, context)
tuple per window: the `k`-th slice exists exactly while the group's
remaining span is not exhausted (its cutoff `t0 + k·g` is at most the
group's last time index), its cutoff time is `t0 + k·g` — advanced by
exactly the gap size at each step — its rows are the rows falling in the
window starting at that cutoff, and its context records the slice
number. -/
theorem slice_advances_cutoff_by_gap_until_span_exhausted
    (rows : List Row) (w g t0 : Int) (k : Nat)
    (hg : 0 < g) (hne : rows ≠ []) :
    (k < (sliceGroup rows w g t0).length ↔ t0 + (k : Int) * g ≤ maxTime rows)
    ∧ (sliceGroup rows w g t0)[k]? =
        (if t0 + (k : Int) * g ≤ maxTime rows then
          some ⟨windowRows rows (t0 + (k : Int) * g) w, t0 + (k : Int) * g, ⟨k⟩⟩
        else none) := by
  have hiff := lt_numSlices_iff rows g t0 k hg
  constructor
  · rw [length_sliceGroup, hiff]
    simp [hne]
  · rw [sliceGroup_getElem?]
    by_cases h : t0 + (k : Int) * g ≤ maxTime rows
    · rw [if_pos (hiff.mpr ⟨hne, h⟩), if_pos h]
      rfl
    · rw [if_neg (fun hk => h (hiff.mp hk).2), if_neg h]

/-- Witness for C1 at a concrete group: three transactions at times 0, 1
and 3, a 2-hour window, a 2-hour gap and first cutoff 0, checked at
slice number 1. -/
theorem slice_advances_cutoff_by_gap_until_span_exhausted_witness :
    (0 : Int) < 2
    ∧ ([⟨1, 0, 10⟩, ⟨1, 1, 20⟩, ⟨1, 3, 30⟩] : List Row) ≠ []
    ∧ ((1 < (sliceGroup [⟨1, 0, 10⟩, ⟨1, 1, 20⟩, ⟨1, 3, 30⟩] 2 2 0).length ↔
          (0 : Int) + (1 : Nat) * 2 ≤ maxTime [⟨1, 0, 10⟩, ⟨1, 1, 20⟩, ⟨1, 3, 30⟩])
        ∧ (sliceGroup [⟨1, 0, 10⟩, ⟨1, 1, 20⟩, ⟨1, 3, 30⟩] 2 2 0)[1]? =
            (if (0 : Int) + (1 : Nat) * 2 ≤ maxTime [⟨1, 0, 10⟩, ⟨1, 1, 20⟩, ⟨1, 3, 30⟩] then
              some ⟨windowRows [⟨1, 0, 10⟩, ⟨1, 1, 20⟩, ⟨1, 3, 30⟩] ((0 : Int) + (1 : Nat) * 2) 2,
                (0 : Int) + (1 : Nat) * 2, ⟨1⟩⟩
            else none)) :=
  ⟨by decide, by decide,
    slice_advances_cutoff_by_gap_until_span_exhausted
      [⟨1, 0, 10⟩, ⟨1, 1, 20⟩, ⟨1, 3, 30⟩] 2 2 0 1 (by decide) (by decide)⟩

end Compose

namespace Compose

/-! ### C3, C4, C5: the relation between consecutive slices -/

/-- C3: when the gap size equals the window size, consecutive data
slices are non-overlapping and skip no data in between: the next slice's
window starts exactly where the previous slice's window ends (its cutoff
is the previous cutoff plus the window size), no row belongs to both
slices, and every row of the group lying in the combined span of the two
windows belongs to one of them. -/
theorem consecutive_slices_abut_without_overlap_or_skip
    (rows : List Row) (w t0 : Int) (k : Nat) (s s' : DataSlice)
    (hw : 0 < w)
    (hs : (sliceGroup rows w w t0)[k]? = some s)
    (hs' : (sliceGroup rows w w t0)[k + 1]? = some s') :
    s'.cutoff = s.cutoff + w
    ∧ (∀ r ∈ s.rows, r ∉ s'.rows)
    ∧ (∀ r ∈ rows, s.cutoff ≤ r.time → r.time < s'.cutoff + w →
        r ∈ s.rows ∨ r ∈ s'.rows) := by
  obtain ⟨hk, rfl⟩ := sliceGroup_getElem?_eq_some hs
  obtain ⟨hk', rfl⟩ := sliceGroup_getElem?_eq_some hs'
  have hcast : (((k + 1 : Nat)) : Int) * w = (k : Int) * w + w := by
    push_cast
    ring
  refine ⟨?_, ?_, ?_⟩
  · simp only [mkSlice]
    rw [hcast]
    ring
  · intro r hr hr'
    simp only [mkSlice, mem_windowRows] at hr hr'
    rw [hcast] at hr'
    linarith [hr.2.2, hr'.2.1]
  · intro r hrrows h1 h2
    simp only [mkSlice, mem_windowRows] at h1 h2 ⊢
    rw [hcast] at h2 ⊢
    by_cases hcase : r.time < t0 + (k : Int) * w + w
    · exact Or.inl ⟨hrrows, h1, hcase⟩
    · exact Or.inr ⟨hrrows, by linarith, by linarith⟩

/-- Witness for C3: the demonstration group sliced with a 2-hour window
and 2-hour gap; slices 0 and 1 abut at time 2. -/
theorem consecutive_slices_abut_without_overlap_or_skip_witness :
    (0 : Int) < 2
    ∧ (sliceGroup demoRows 2 2 0)[0]? =
        some ⟨[⟨1, 0, 10⟩, ⟨1, 1, 20⟩], 0, ⟨0⟩⟩
    ∧ (sliceGroup demoRows 2 2 0)[0 + 1]? = some ⟨[⟨1, 3, 30⟩], 2, ⟨1⟩⟩
    ∧ ((⟨[⟨1, 3, 30⟩], 2, ⟨1⟩⟩ : DataSlice).cutoff =
          (⟨[⟨1, 0, 10⟩, ⟨1, 1, 20⟩], 0, ⟨0⟩⟩ : DataSlice).cutoff + 2
        ∧ (∀ r ∈ (⟨[⟨1, 0, 10⟩, ⟨1, 1, 20⟩], 0, ⟨0⟩⟩ : DataSlice).rows,
            r ∉ (⟨[⟨1, 3, 30⟩], 2, ⟨1⟩⟩ : DataSlice).rows)
        ∧ (∀ r ∈ demoRows,
            (⟨[⟨1, 0, 10⟩, ⟨1, 1, 20⟩], 0, ⟨0⟩⟩ : DataSlice).cutoff ≤ r.time →
            r.time < (⟨[⟨1, 3, 30⟩], 2, ⟨1⟩⟩ : DataSlice).cutoff + 2 →
            r ∈ (⟨[⟨1, 0, 10⟩, ⟨1, 1, 20⟩], 0, ⟨0⟩⟩ : DataSlice).rows
              ∨ r ∈ (⟨[⟨1, 3, 30⟩], 2, ⟨1⟩⟩ : DataSlice).rows)) :=
  ⟨by decide, by decide, by decide,
    consecutive_slices_abut_without_overlap_or_skip demoRows 2 0 0
      ⟨[⟨1, 0, 10⟩, ⟨1, 1, 20⟩], 0, ⟨0⟩⟩ ⟨[⟨1, 3, 30⟩], 2, ⟨1⟩⟩
      (by decide) (by decide) (by decide)⟩

/-- C4: when the gap size is less than the window size, the cutoff times
of consecutive slices are exactly the gap size apart, and the two
windows overlap on the interval from the next cutoff to the end of the
previous window, whose span is the window size minus the gap size: a row
of the group belongs to both slices exactly when its time lies in that
interval. -/
theorem overlapping_slices_overlap_by_window_minus_gap
    (rows : List Row) (w g t0 : Int) (k : Nat) (s s' : DataSlice)
    (hg : 0 < g) (hgw : g < w)
    (hs : (sliceGroup rows w g t0)[k]? = some s)
    (hs' : (sliceGroup rows w g t0)[k + 1]? = some s') :
    s'.cutoff = s.cutoff + g
    ∧ s.cutoff + w - s'.cutoff = w - g
    ∧ (∀ r ∈ rows, (r ∈ s.rows ∧ r ∈ s'.rows) ↔
        (s'.cutoff ≤ r.time ∧ r.time < s.cutoff + w)) := by
  obtain ⟨hk, rfl⟩ := sliceGroup_getElem?_eq_some hs
  obtain ⟨hk', rfl⟩ := sliceGroup_getElem?_eq_some hs'
  have hcast : (((k + 1 : Nat)) : Int) * g = (k : Int) * g + g := by
    push_cast
    ring
  refine ⟨?_, ?_, ?_⟩
  · simp only [mkSlice]
    rw [hcast]
    ring
  · simp only [mkSlice]
    rw [hcast]
    ring
  · intro r hrrows
    simp only [mkSlice, mem_windowRows]
    rw [hcast]
    constructor
    · rintro ⟨⟨-, -, hlt⟩, ⟨-, hle, -⟩⟩
      exact ⟨hle, hlt⟩
    · rintro ⟨hle, hlt⟩
      exact ⟨⟨hrrows, by linarith, hlt⟩, ⟨hrrows, hle, by linarith⟩⟩

/-- Witness for C4: the demonstration group sliced with a 3-hour window
and 1-hour gap; slices 0 and 1 have cutoffs 1 hour apart and overlap on
a 2-hour interval. -/
theorem overlapping_slices_overlap_by_window_minus_gap_witness :
    (0 : Int) < 1
    ∧ (1 : Int) < 3
    ∧ (sliceGroup demoRows 3 1 0)[0]? =
        some ⟨[⟨1, 0, 10⟩, ⟨1, 1, 20⟩], 0, ⟨0⟩⟩
    ∧ (sliceGroup demoRows 3 1 0)[0 + 1]? =
        some ⟨[⟨1, 1, 20⟩, ⟨1, 3, 30⟩], 1, ⟨1⟩⟩
    ∧ ((⟨[⟨1, 1, 20⟩, ⟨1, 3, 30⟩], 1, ⟨1⟩⟩ : DataSlice).cutoff =
          (⟨[⟨1, 0, 10⟩, ⟨1, 1, 20⟩], 0, ⟨0⟩⟩ : DataSlice).cutoff + 1
        ∧ (⟨[⟨1, 0, 10⟩, ⟨1, 1, 20⟩], 0, ⟨0⟩⟩ : DataSlice).cutoff + 3 -
            (⟨[⟨1, 1, 20⟩, ⟨1, 3, 30⟩], 1, ⟨1⟩⟩ : DataSlice).cutoff = 3 - 1
        ∧ (∀ r ∈ demoRows,
            (r ∈ (⟨[⟨1, 0, 10⟩, ⟨1, 1, 20⟩], 0, ⟨0⟩⟩ : DataSlice).rows
                ∧ r ∈ (⟨[⟨1, 1, 20⟩, ⟨1, 3, 30⟩], 1, ⟨1⟩⟩ : DataSlice).rows) ↔
              ((⟨[⟨1, 1, 20⟩, ⟨1, 3, 30⟩], 1, ⟨1⟩⟩ : DataSlice).cutoff ≤ r.time
                ∧ r.time <
                    (⟨[⟨1, 0, 10⟩, ⟨1, 1, 20⟩], 0, ⟨0⟩⟩ : DataSlice).cutoff + 3))) :=
  ⟨by decide, by decide, by decide, by decide,
    overlapping_slices_overlap_by_window_minus_gap demoRows 3 1 0 0
      ⟨[⟨1, 0, 10⟩, ⟨1, 1, 20⟩], 0, ⟨0⟩⟩ ⟨[⟨1, 1, 20⟩, ⟨1, 3, 30⟩], 1, ⟨1⟩⟩
      (by decide) (by decide) (by decide) (by decide)⟩

/-- C5: when the gap size is greater than the window size, the span
between the end of one slice's window and the start of the next slice's
window equals the gap size minus the window size, and every row of the
group whose time lies strictly inside that span is skipped: it belongs
to no slice the generator produces. -/
theorem spread_out_slices_skip_gap_minus_window
    (rows : List Row) (w g t0 : Int) (k : Nat) (s s' : DataSlice)
    (hw : 0 < w) (hwg : w < g)
    (hs : (sliceGroup rows w g t0)[k]? = some s)
    (hs' : (sliceGroup rows w g t0)[k + 1]? = some s') :
    s'.cutoff = s.cutoff + g
    ∧ s'.cutoff - (s.cutoff + w) = g - w
    ∧ (∀ r ∈ rows, s.cutoff + w ≤ r.time → r.time < s'.cutoff →
        ∀ s'' ∈ sliceGroup rows w g t0, r ∉ s''.rows) := by
  have hg : (0 : Int) < g := hw.trans hwg
  obtain ⟨hk, rfl⟩ := sliceGroup_getElem?_eq_some hs
  obtain ⟨hk', rfl⟩ := sliceGroup_getElem?_eq_some hs'
  have hcast : (((k + 1 : Nat)) : Int) * g = (k : Int) * g + g := by
    push_cast
    ring
  refine ⟨?_, ?_, ?_⟩
  · simp only [mkSlice]
    rw [hcast]
    ring
  · simp only [mkSlice]
    rw [hcast]
    ring
  · intro r hrrows h1 h2 s'' hs'' hrs
    obtain ⟨j, hj, rfl⟩ := mem_sliceGroup.mp hs''
    simp only [mkSlice, mem_windowRows] at h1 h2 hrs
    rw [hcast] at h2
    rcases le_or_lt j k with hjk | hjk
    · have : (j : Int) * g ≤ (k : Int) * g :=
        mul_le_mul_of_nonneg_right (by exact_mod_cast hjk) hg.le
      linarith [hrs.2.2]
    · have : (k : Int) * g + g ≤ (j : Int) * g := by
        have : ((k + 1 : Nat) : Int) * g ≤ (j : Int) * g :=
          mul_le_mul_of_nonneg_right (by exact_mod_cast hjk) hg.le
        linarith [hcast ▸ this]
      linarith [hrs.2.1]

/-- Witness for C5: the demonstration group sliced with a 1-hour window
and 3-hour gap; the 2 hours between the end of slice 0's window and the
start of slice 1's window are skipped. -/
theorem spread_out_slices_skip_gap_minus_window_witness :
    (0 : Int) < 1
    ∧ (1 : Int) < 3
    ∧ (sliceGroup demoRows 1 3 0)[0]? = some ⟨[⟨1, 0, 10⟩], 0, ⟨0⟩⟩
    ∧ (sliceGroup demoRows 1 3 0)[0 + 1]? = some ⟨[⟨1, 3, 30⟩], 3, ⟨1⟩⟩
    ∧ ((⟨[⟨1, 3, 30⟩], 3, ⟨1⟩⟩ : DataSlice).cutoff =
          (⟨[⟨1, 0, 10⟩], 0, ⟨0⟩⟩ : DataSlice).cutoff + 3
        ∧ (⟨[⟨1, 3, 30⟩], 3, ⟨1⟩⟩ : DataSlice).cutoff -
            ((⟨[⟨1, 0, 10⟩], 0, ⟨0⟩⟩ : DataSlice).cutoff + 1) = 3 - 1
        ∧ (∀ r ∈ demoRows,
            (⟨[⟨1, 0, 10⟩], 0, ⟨0⟩⟩ : DataSlice).cutoff + 1 ≤ r.time →
            r.time < (⟨[⟨1, 3, 30⟩], 3, ⟨1⟩⟩ : DataSlice).cutoff →
            ∀ s'' ∈ sliceGroup demoRows 1 3 0, r ∉ s''.rows)) :=
  ⟨by decide, by decide, by decide, by decide,
    spread_out_slices_skip_gap_minus_window demoRows 1 3 0 0
      ⟨[⟨1, 0, 10⟩], 0, ⟨0⟩⟩ ⟨[⟨1, 3, 30⟩], 3, ⟨1⟩⟩
      (by decide) (by decide) (by decide) (by decide)⟩

end Compose

namespace Compose

/-! ### C9: minimum_data as the first cutoff time -/

/-- C9: when `minimum_data` is given as a timestamp `t0`, that timestamp
is the first cutoff time: for every window size and gap size, the first
generated data slice has cutoff time `t0`, its rows are exactly the rows
of the window starting at `t0`, and every row it contains has time index
at least `t0`. -/
theorem first_slice_starts_at_minimum_data
    (rows : List Row) (w g t0 : Int) (s : DataSlice)
    (hs : (sliceGroup rows w g t0)[0]? = some s) :
    s.cutoff = t0 ∧ s.rows = windowRows rows t0 w
    ∧ ∀ r ∈ s.rows, t0 ≤ r.time := by
  obtain ⟨-, rfl⟩ := sliceGroup_getElem?_eq_some hs
  have h0 : t0 + ((0 : Nat) : Int) * g = t0 := by
    push_cast
    ring
  refine ⟨by simp [mkSlice, h0], by simp [mkSlice, h0], ?_⟩
  intro r hr
  simp only [mkSlice, h0, mem_windowRows] at hr
  exact hr.2.1

/-- Witness for C9: the demonstration group with window 2, gap 3 and
first cutoff time 0. -/
theorem first_slice_starts_at_minimum_data_witness :
    (sliceGroup demoRows 2 3 0)[0]? = some ⟨[⟨1, 0, 10⟩, ⟨1, 1, 20⟩], 0, ⟨0⟩⟩
    ∧ ((⟨[⟨1, 0, 10⟩, ⟨1, 1, 20⟩], 0, ⟨0⟩⟩ : DataSlice).cutoff = 0
        ∧ (⟨[⟨1, 0, 10⟩, ⟨1, 1, 20⟩], 0, ⟨0⟩⟩ : DataSlice).rows =
            windowRows demoRows 0 2
        ∧ ∀ r ∈ (⟨[⟨1, 0, 10⟩, ⟨1, 1, 20⟩], 0, ⟨0⟩⟩ : DataSlice).rows,
            (0 : Int) ≤ r.time) :=
  ⟨by decide,
    first_slice_starts_at_minimum_data demoRows 2 3 0
      ⟨[⟨1, 0, 10⟩, ⟨1, 1, 20⟩], 0, ⟨0⟩⟩ (by decide)⟩

/-! ### C2 and C10: the label times table -/

theorem mem_searchKeys {f : List Row → Int} {table : List Row}
    {w g t0 n : Int} (keys : List Nat) (lr : LabelRow) :
    lr ∈ searchKeys f table w g t0 n keys ↔
      ∃ k ∈ keys, lr ∈ labelGroup f table w g t0 n k := by
  induction keys with
  | nil => simp [searchKeys]
  | cons k ks ih => simp [searchKeys, ih]

theorem limitSlices_neg_one (xs : List DataSlice) : limitSlices (-1) xs = xs := by
  simp [limitSlices]

/-- C2: a label times row belongs to the search result (run with no
per-instance limit) exactly when it is built from a window produced by
the slice generator for some group of the table: its label value is the
labeling function applied to that window's row subset, and the row
consists of exactly the three columns group key, cutoff time and label
value. -/
theorem search_rows_are_labeled_windows
    (f : List Row → Int) (table : List Row) (w g t0 : Int) (lr : LabelRow) :
    lr ∈ search f table w g t0 (-1) ↔
      ∃ k ∈ keyList table, ∃ s ∈ sliceGroup (groupRows table k) w g t0,
        lr = ⟨k, s.cutoff, f s.rows⟩ := by
  rw [search, mem_searchKeys]
  simp only [labelGroup, limitSlices_neg_one, List.mem_map]
  constructor
  · rintro ⟨k, hk, s, hs, h⟩
    exact ⟨k, hk, s, hs, h.symm⟩
  · rintro ⟨k, hk, s, hs, h⟩
    exact ⟨k, hk, s, hs, h.symm⟩

theorem countKey_append (a b : List LabelRow) (k : Nat) :
    countKey (a ++ b) k = countKey a k + countKey b k := by
  simp [countKey, List.filter_append]

theorem countKey_labelGroup (f : List Row → Int) (table : List Row)
    (w g t0 n : Int) (k' k : Nat) :
    countKey (labelGroup f table w g t0 n k') k =
      if k' = k then
        (limitSlices n (sliceGroup (groupRows table k') w g t0)).length
      else 0 := by
  rw [countKey, ← List.countP_eq_length_filter, labelGroup, List.countP_map]
  by_cases h : k' = k
  · simp [h, Function.comp_def]
  · simp [h, Function.comp_def]

theorem countKey_searchKeys (f : List Row → Int) (table : List Row)
    (w g t0 n : Int) (k : Nat) (keys : List Nat) (hnd : keys.Nodup) :
    countKey (searchKeys f table w g t0 n keys) k =
      if k ∈ keys then
        (limitSlices n (sliceGroup (groupRows table k) w g t0)).length
      else 0 := by
  induction keys with
  | nil => simp [searchKeys, countKey]
  | cons k' ks ih =>
    rw [List.nodup_cons] at hnd
    rw [searchKeys, countKey_append, countKey_labelGroup, ih hnd.2]
    by_cases h : k' = k
    · subst h
      simp [hnd.1]
    · by_cases hmem : k ∈ ks <;> simp [h, hmem, Ne.symm h]

/-- C10: with a non-negative `num_examples_per_instance` value `n`, the
label times table returned by the search contains at most `n` rows per
group instance; with the value `-1`, it contains, for every group key of
the table, exactly one row per slice obtainable for that group. -/
theorem num_examples_per_instance_limits_rows_per_group
    (f : List Row → Int) (table : List Row) (w g t0 n : Int) (k : Nat)
    (hn : 0 ≤ n) :
    countKey (search f table w g t0 n) k ≤ n.toNat
    ∧ countKey (search f table w g t0 (-1)) k =
        (if k ∈ keyList table then
          (sliceGroup (groupRows table k) w g t0).length
        else 0) := by
  have hnd : (keyList table).Nodup := by
    rw [keyList]
    exact List.nodup_dedup _
  constructor
  · rw [search, countKey_searchKeys f table w g t0 n k (keyList table) hnd]
    by_cases h : k ∈ keyList table
    · rw [if_pos h, limitSlices, if_neg (by omega), List.length_take]
      exact min_le_left _ _
    · rw [if_neg h]
      exact Nat.zero_le _
  · rw [search, countKey_searchKeys f table w g t0 (-1) k (keyList table) hnd,
      limitSlices_neg_one]

/-- Witness for C10: the two-customer demonstration table searched with
the `total_spent` labeling function, window 2, gap 2, first cutoff 0 and
at most 1 example per instance, checked for customer 2. -/
theorem num_examples_per_instance_limits_rows_per_group_witness :
    (0 : Int) ≤ 1
    ∧ (countKey (search total_spent demoTable 2 2 0 1) 2 ≤ (1 : Int).toNat
        ∧ countKey (search total_spent demoTable 2 2 0 (-1)) 2 =
            (if 2 ∈ keyList demoTable then
              (sliceGroup (groupRows demoTable 2) 2 2 0).length
            else 0)) :=
  ⟨by decide,
    num_examples_per_instance_limits_rows_per_group total_spent demoTable
      2 2 0 1 2 (by decide)⟩

end Compose

namespace Compose

/-! ### C6: error on chronologically unsorted input -/

/-- C6: the search raises an error exactly when the input rows are not
sorted chronologically by the time column: it returns the sorting error
when `sortedByTime` fails, and returns the label times table without an
error when the rows are sorted. -/
theorem search_errors_iff_not_chronological
    (f : List Row → Int) (table : List Row) (w g t0 n : Int) :
    (searchChecked f table w g t0 n =
        Except.error "records must be sorted chronologically" ↔
      sortedByTime table = false)
    ∧ (sortedByTime table = true →
        searchChecked f table w g t0 n = Except.ok (search f table w g t0 n)) := by
  unfold searchChecked
  cases h : sortedByTime table <;> simp [h]

/-! ### C7: cutoff times exclude later data from feature computation -/

/-- C7: the feature value computed for a label with cutoff time `t`
depends only on rows whose time index is strictly before `t`: two input
tables agreeing on the rows before `t` yield the same feature value for
every aggregation primitive, and prepending a row whose time index is at
or after the cutoff time leaves the feature value unchanged. -/
theorem features_depend_only_on_data_before_cutoff
    (agg : List Row → Int) (table1 table2 : List Row) (r : Row) (t : Int)
    (hagree : rowsBefore table1 t = rowsBefore table2 t)
    (hr : t ≤ r.time) :
    dfsFeature agg table1 t = dfsFeature agg table2 t
    ∧ dfsFeature agg (r :: table1) t = dfsFeature agg table1 t := by
  constructor
  · unfold dfsFeature
    rw [hagree]
  · unfold dfsFeature rowsBefore
    rw [List.filter_cons_of_neg]
    simp
    omega

/-- Witness for C7: two tables agreeing before cutoff time 5, and a row
at time 6 prepended to the first, with the `sum` aggregation primitive. -/
theorem features_depend_only_on_data_before_cutoff_witness :
    rowsBefore [⟨1, 0, 5⟩, ⟨1, 9, 1⟩] 5 = rowsBefore [⟨1, 0, 5⟩, ⟨1, 7, 2⟩] 5
    ∧ (5 : Int) ≤ (⟨1, 6, 100⟩ : Row).time
    ∧ (dfsFeature sumAgg [⟨1, 0, 5⟩, ⟨1, 9, 1⟩] 5 =
          dfsFeature sumAgg [⟨1, 0, 5⟩, ⟨1, 7, 2⟩] 5
        ∧ dfsFeature sumAgg (⟨1, 6, 100⟩ :: [⟨1, 0, 5⟩, ⟨1, 9, 1⟩]) 5 =
            dfsFeature sumAgg [⟨1, 0, 5⟩, ⟨1, 9, 1⟩] 5) :=
  ⟨by decide, by decide,
    features_depend_only_on_data_before_cutoff sumAgg
      [⟨1, 0, 5⟩, ⟨1, 9, 1⟩] [⟨1, 0, 5⟩, ⟨1, 7, 2⟩] ⟨1, 6, 100⟩ 5
      (by decide) (by decide)⟩

end Compose

namespace Workflows

/-! ### C8: the Minimum Dependency Checker workflow -/

/-- Counterexample for C8 as stated: a push to a branch other than
`main` that modifies `setup.cfg` would run the workflow per the claim,
but the workflow's push trigger is filtered to the `main` branch, so it
does not run. -/
theorem mdc_trigger_ignores_non_main_branches :
    claimedMdcTrigger (.push ⟨"feature", ["setup.cfg"]⟩) = true
    ∧ mdcTriggered (.push ⟨"feature", ["setup.cfg"]⟩) = false := by
  constructor <;> rfl

/-- C8 (amended): the Minimum Dependency Checker workflow runs exactly
when it is manually dispatched or when a push to the `main` branch
modifies `setup.cfg`; its job regenerates the minimum dependency pin
files from `setup.cfg` — a core requirements file from
`install_requires`, and a test requirements file that also includes the
`test` extras — and its final step opens a pull request with the
updates. -/
theorem mdc_runs_on_dispatch_or_main_push_touching_setup_cfg
    (e : WorkflowEvent) :
    (mdcTriggered e = true ↔
      (e = .workflowDispatch ∨
        ∃ p, e = .push p ∧ p.branch = "main" ∧ "setup.cfg" ∈ p.changedPaths))
    ∧ MdcStep.minDepGenerator "setup.cfg" "install_requires" (some "test")
        "composeml/tests/requirement_files/minimum_test_requirements.txt" ∈ mdcSteps
    ∧ MdcStep.minDepGenerator "setup.cfg" "install_requires" none
        "composeml/tests/requirement_files/minimum_core_requirements.txt" ∈ mdcSteps
    ∧ mdcSteps.getLast? = some (.createPullRequest "min-dep-update" "main") := by
  refine ⟨?_, by decide, by decide, by decide⟩
  cases e with
  | workflowDispatch => simp [mdcTriggered]
  | push p =>
    simp only [mdcTriggered, Bool.and_eq_true, beq_iff_eq, reduceCtorEq,
      WorkflowEvent.push.injEq, false_or]
    rw [List.contains_iff_exists_mem_beq]
    constructor
    · rintro ⟨hb, x, hx, hbeq⟩
      exact ⟨p, rfl, hb, by rwa [beq_iff_eq] at hbeq ▸ hx⟩
    · rintro ⟨p', hp, hb, hmem⟩
      cases hp
      exact ⟨hb, "setup.cfg", hmem, by simp⟩

end Workflows
